import Mathlib

/-!
Verification of the UV-gridding and dirty-image engine of `radiotools`
(`radiotools/gridding/gridding.py`, class `Gridder`).

The gridding pipeline (`Gridder._create_attributes`) is embedded over exact
rational arithmetic: coordinates, visibilities and the histogram/averaging
steps are `ℚ`-valued (the Python code runs on IEEE floats / float128; the
claims under study are about exact values, so the embedding works in exact
arithmetic).  The inverse-FFT stage is embedded over `ℂ` with the standard
inverse discrete Fourier transform.
-/

namespace Radiotools

/-- Speed of light in m/s (the numeric value of `astropy.constants.c`),
used in `u = uu * freq / c`. -/
def c_val : ℚ := 299792458

/-- `numpy.arange(start, stop, step)` under exact arithmetic: the list
`start + i*step` for `0 ≤ i < ⌈(stop - start)/step⌉`. -/
def arange (start stop step : ℚ) : List ℚ :=
  (List.range (⌈(stop - start) / step⌉).toNat).map fun j : ℕ => start + (j : ℚ) * step

/-- One input visibility row: baseline coordinates `uu`, `vv` (physical
units) and the Stokes-I visibility per channel as (real, imag) pairs.
`Gridder._create_attributes` keeps only channel column 0. -/
structure VisSample where
  uu : ℚ
  vv : ℚ
  stokes : List (ℚ × ℚ)
deriving DecidableEq

/-- Channel column 0 of a row, `stokes_i[:, 0]` in the source. -/
def stokesCol0 (r : VisSample) : ℚ × ℚ := r.stokes.headD (0, 0)

/-- Wavelength normalization `u = uu * self.freq / c`. -/
def toWavelengths (freq x : ℚ) : ℚ := x * freq / c_val

/-- One entry of the mirrored sample array `samps`. -/
structure Samp where
  u : ℚ
  v : ℚ
  re : ℚ
  im : ℚ
deriving DecidableEq

/-- The mirrored sample array built in `_create_attributes`:
`samps = [append(-u, u), append(-v, v), append(real, real), append(-imag, imag)]`,
i.e. first the Hermitian partners `(-u, -v, Re, -Im)` of all rows, then the
original samples `(u, v, Re, Im)`. -/
def mkSamps (freq : ℚ) (rows : List VisSample) : List Samp :=
  rows.map (fun r =>
    { u := -toWavelengths freq r.uu
      v := -toWavelengths freq r.vv
      re := (stokesCol0 r).1
      im := -(stokesCol0 r).2 }) ++
  rows.map (fun r =>
    { u := toWavelengths freq r.uu
      v := toWavelengths freq r.vv
      re := (stokesCol0 r).1
      im := (stokesCol0 r).2 })

/-- The bin-edge array of `_create_attributes`:
`np.arange(start=-(N/2 + 1/2)*delta, stop=(N/2 + 1/2)*delta, step=delta)`
with `delta = fov ** (-1)` (the code computes it in float128; here exact). -/
def binEdges (N : ℕ) (fov : ℚ) : List ℚ :=
  arange (-((N : ℚ) / 2 + 1 / 2) * fov⁻¹) (((N : ℚ) / 2 + 1 / 2) * fov⁻¹) fov⁻¹

/-- `np.histogram2d` bin membership for bin `i` of the edge list: half-open
`[e_i, e_{i+1})`, except the rightmost bin, which is closed. -/
def inBin (edges : List ℚ) (i : ℕ) (x : ℚ) : Bool :=
  decide (edges.getD i 0 ≤ x) &&
    (if i + 2 = edges.length then decide (x ≤ edges.getD (i + 1) 0)
     else decide (x < edges.getD (i + 1) 0))

/-- Whether mirrored sample `s` lands in cell `(i, j)` (axis 0 bins the `u`
values, axis 1 the `v` values, as in `np.histogram2d(samps[0], samps[1])`). -/
def inCell (edges : List ℚ) (i j : ℕ) (s : Samp) : Bool :=
  inBin edges i s.u && inBin edges j s.v

/-- Unweighted 2D histogram count of cell `(i, j)`. -/
def cellCount (edges : List ℚ) (samps : List Samp) (i j : ℕ) : ℕ :=
  (samps.filter (inCell edges i j)).length

/-- Weighted 2D histogram of cell `(i, j)` with weight function `w`. -/
def cellSum (edges : List ℚ) (samps : List Samp) (w : Samp → ℚ) (i j : ℕ) : ℚ :=
  ((samps.filter (inCell edges i j)).map w).sum

/-- The coverage mask after the zero-replacement step
(`mask, *_ = np.histogram2d(...); mask[mask == 0] = 1`). -/
def gridMask (N : ℕ) (fov freq : ℚ) (rows : List VisSample) (i j : ℕ) : ℚ :=
  let cnt := cellCount (binEdges N fov) (mkSamps freq rows) i j
  if cnt = 0 then 1 else (cnt : ℚ)

/-- The gridded real part, `mask_real = histogram2d(..., weights=samps[2]) / mask`. -/
def gridReal (N : ℕ) (fov freq : ℚ) (rows : List VisSample) (i j : ℕ) : ℚ :=
  cellSum (binEdges N fov) (mkSamps freq rows) Samp.re i j / gridMask N fov freq rows i j

/-- The gridded imaginary part, `mask_imag = histogram2d(..., weights=samps[3]) / mask`. -/
def gridImag (N : ℕ) (fov freq : ℚ) (rows : List VisSample) (i j : ℕ) : ℚ :=
  cellSum (binEdges N fov) (mkSamps freq rows) Samp.im i j / gridMask N fov freq rows i j

/-! ### The inverse-FFT stage (`np.fft.fftshift`, `np.fft.ifft2`) -/

/-- `np.fft.fftshift` on an `N×N` array: a cyclic roll of both axes by
`N // 2`, i.e. `result[j, k] = M[(j - N//2) % N, (k - N//2) % N]`. -/
def fftshift {N : ℕ} {α : Type} (M : Fin N → Fin N → α) (j k : Fin N) : α :=
  M ⟨((j : ℕ) + (N - N / 2)) % N, Nat.mod_lt _ j.pos⟩
    ⟨((k : ℕ) + (N - N / 2)) % N, Nat.mod_lt _ k.pos⟩

/-- `np.fft.ifft2` on an `N×N` complex array: the inverse 2D discrete
Fourier transform
`X[j, k] = (1/N²) Σ_{a,b} M[a, b] · exp(2πi·(a·j + b·k)/N)`. -/
noncomputable def ifft2 {N : ℕ} (M : Fin N → Fin N → ℂ) (j k : Fin N) : ℂ :=
  ((N : ℂ) ^ 2)⁻¹ * ∑ a : Fin N, ∑ b : Fin N,
    M a b * Complex.exp (2 * (Real.pi : ℂ) * Complex.I *
      ((((a : ℕ) * (j : ℕ) + (b : ℕ) * (k : ℕ) : ℕ) : ℂ)) / (N : ℂ))

/-- The complex grid `mask_real + 1j * mask_imag` handed to the FFT. -/
noncomputable def gridCmplx (N : ℕ) (fov freq : ℚ) (rows : List VisSample)
    (i j : Fin N) : ℂ :=
  ((gridReal N fov freq rows (i : ℕ) (j : ℕ) : ℚ) : ℂ) +
    ((gridImag N fov freq rows (i : ℕ) (j : ℕ) : ℚ) : ℂ) * Complex.I

/-- `self.dirty_img_cmplx = np.fft.fftshift(np.fft.ifft2(np.fft.fftshift(mask_real + 1j*mask_imag)))`. -/
noncomputable def dirtyImgCmplx (N : ℕ) (fov freq : ℚ) (rows : List VisSample)
    (j k : Fin N) : ℂ :=
  fftshift (ifft2 (fftshift (gridCmplx N fov freq rows))) j k

/-- `self.dirty_img = np.real(self.dirty_img_cmplx)` (no axis reversal is
applied in the current source). -/
noncomputable def dirtyImg (N : ℕ) (fov freq : ℚ) (rows : List VisSample)
    (j k : Fin N) : ℝ :=
  (dirtyImgCmplx N fov freq rows j k).re

/-- Reversal of the row order of an `N×N` array (`arr[::-1, :]` in numpy
terms); used to state the spec's "row order reversed" reading. -/
def reverseRows {N : ℕ} {α : Type} (M : Fin N → Fin N → α) (j k : Fin N) : α :=
  M j.rev k

/-- Reversal of the column order of an `N×N` array (`arr[:, ::-1]`), used by
`plot_dirty_image` for the `imag`/`abs` variants. -/
def reverseCols {N : ℕ} {α : Type} (M : Fin N → Fin N → α) (j k : Fin N) : α :=
  M j k.rev

/-! ### The `Gridder` object and its methods -/

/-- The attribute state of a `Gridder` instance after `_create_attributes`:
everything a later method call can read. -/
structure GridderState (N : ℕ) where
  fov : ℚ
  freq : ℚ
  uu : List ℚ
  vv : List ℚ
  u : List ℚ
  v : List ℚ
  stokes_i : List (ℚ × ℚ)
  mask : Fin N → Fin N → ℚ
  mask_real : Fin N → Fin N → ℚ
  mask_imag : Fin N → Fin N → ℚ
  dirty_img_cmplx : Fin N → Fin N → ℂ
  dirty_img : Fin N → Fin N → ℝ

/-- `Gridder._create_attributes`: builds the full attribute state from the
raw rows.  `fov` is the field of view in radians (the callers convert the
arcsecond input by `fov * π / (3600 * 180)` before storing it). -/
noncomputable def createAttributes (N : ℕ) (fov freq : ℚ) (rows : List VisSample) :
    GridderState N where
  fov := fov
  freq := freq
  uu := rows.map VisSample.uu
  vv := rows.map VisSample.vv
  u := rows.map fun r => toWavelengths freq r.uu
  v := rows.map fun r => toWavelengths freq r.vv
  stokes_i := rows.map stokesCol0
  mask := fun i j => gridMask N fov freq rows (i : ℕ) (j : ℕ)
  mask_real := fun i j => gridReal N fov freq rows (i : ℕ) (j : ℕ)
  mask_imag := fun i j => gridImag N fov freq rows (i : ℕ) (j : ℕ)
  dirty_img_cmplx := dirtyImgCmplx N fov freq rows
  dirty_img := dirtyImg N fov freq rows

/-- `Gridder.plot_ungridded_uv`: reads `self.u`, `self.v` and scatters
`x = np.append(self.u, -self.u)`, `y = np.append(self.v, -self.v)`.
The method only reads attributes; the returned pair is the post-call state
together with the scatter data handed to matplotlib. -/
noncomputable def plotUngriddedUv {N : ℕ} (g : GridderState N) :
    GridderState N × (List ℚ × List ℚ) :=
  (g, (g.u ++ g.u.map Neg.neg, g.v ++ g.v.map Neg.neg))

/-- `Gridder.plot_mask`: displays `img = self.mask`. -/
noncomputable def plotMask {N : ℕ} (g : GridderState N) :
    GridderState N × (Fin N → Fin N → ℚ) :=
  (g, g.mask)

/-- `Gridder.plot_mask_absolute`: displays
`np.absolute(self.mask_real + self.mask_imag * 1j)`. -/
noncomputable def plotMaskAbsolute {N : ℕ} (g : GridderState N) :
    GridderState N × (Fin N → Fin N → ℝ) :=
  (g, fun i j => Complex.abs ((g.mask_real i j : ℂ) + (g.mask_imag i j : ℂ) * Complex.I))

/-- `Gridder.plot_mask_phase`: displays
`np.angle(self.mask_real + self.mask_imag * 1j)`. -/
noncomputable def plotMaskPhase {N : ℕ} (g : GridderState N) :
    GridderState N × (Fin N → Fin N → ℝ) :=
  (g, fun i j => Complex.arg ((g.mask_real i j : ℂ) + (g.mask_imag i j : ℂ) * Complex.I))

/-- `Gridder.plot_dirty_image`: selects the component by `mode`
(`real` → `self.dirty_img`; `imag`/`abs` → the imaginary part/absolute value
of `self.dirty_img_cmplx` with the column order reversed (`[:, ::-1]`);
any other mode warns and falls back to `real`), then displays
`img * img_multiplier`.  All variants build fresh arrays; no attribute is
reassigned or mutated in place. -/
noncomputable def plotDirtyImage {N : ℕ} (g : GridderState N) (mode : String)
    (img_multiplier : ℝ) : GridderState N × (Fin N → Fin N → ℝ) :=
  let dirty_image : Fin N → Fin N → ℝ :=
    match mode with
    | "real" => g.dirty_img
    | "imag" => reverseCols fun j k => (g.dirty_img_cmplx j k).im
    | "abs" => reverseCols fun j k => Complex.abs (g.dirty_img_cmplx j k)
    | _ => g.dirty_img
  (g, fun j k => dirty_image j k * img_multiplier)

/-- `Gridder.plot`: the summary figure, which calls the five plotting
methods in sequence on the same instance. -/
noncomputable def plotSummary {N : ℕ} (g : GridderState N)
    (dirtyMode : String) (dirtyMultiplier : ℝ) :
    GridderState N × ((List ℚ × List ℚ) × (Fin N → Fin N → ℚ) ×
      (Fin N → Fin N → ℝ) × (Fin N → Fin N → ℝ) × (Fin N → Fin N → ℝ)) :=
  let s1 := plotUngriddedUv g
  let s2 := plotMask s1.1
  let s3 := plotMaskAbsolute s2.1
  let s4 := plotMaskPhase s3.1
  let s5 := plotDirtyImage s4.1 dirtyMode dirtyMultiplier
  (s5.1, (s1.2, s2.2, s3.2, s4.2, s5.2))

/-! ### Alternate constructors `from_fits` / `from_ms` and failure paths -/

/-- The exception kinds raised by the alternate constructors:
`FileNotFoundError`, `ModuleNotFoundError` (missing `casatools`) and
`NotADirectoryError`. -/
inductive GridderError : Type
  | fileNotFound : GridderError
  | moduleNotFound : GridderError
  | notADirectory : GridderError
deriving DecidableEq

/-- The environment `Gridder.from_fits` runs in: whether `Path(fits_path).is_file()`
holds, plus the decoded FITS payloads (grid size, field of view in radians,
`CRVAL4` frequency and the visibility rows). -/
structure FitsEnv where
  isFile : Bool
  imgSize : ℕ
  fov : ℚ
  freq : ℚ
  rows : List VisSample

/-- `Gridder.from_fits`: raises `FileNotFoundError` when the path is not a
file, otherwise loads the data and computes the attributes. -/
noncomputable def fromFits (env : FitsEnv) :
    Except GridderError (GridderState env.imgSize) :=
  if !env.isFile then .error .fileNotFound
  else .ok (createAttributes env.imgSize env.fov env.freq env.rows)

/-- The environment `Gridder.from_ms` runs in: whether `casatools` imported
(`CASA_AVAIL`), whether `Path(ms_path).is_dir()` holds, the outcome of the
`SPECTRAL_WINDOW`→`CHAN_FREQ` read (`none` models the exception swallowed by
the `try`/`except`), and the measurement-set payloads. -/
structure MsEnv where
  casaAvail : Bool
  isDir : Bool
  chanFreqRead : Option ℚ
  imgSize : ℕ
  fov : ℚ
  rows : List VisSample

/-- `Gridder.from_ms`: raises `ModuleNotFoundError` when `casatools` is not
installed, then `NotADirectoryError` when the measurement-set directory does
not exist; a failure of the `SPECTRAL_WINDOW` frequency read is caught by a
`try`/`except` and silently replaced by the default `230e9`. -/
noncomputable def fromMs (env : MsEnv) :
    Except GridderError (GridderState env.imgSize) :=
  if !env.casaAvail then .error .moduleNotFound
  else if !env.isDir then .error .notADirectory
  else
    let freq : ℚ :=
      match env.chanFreqRead with
      | some f => f
      | none => 230e9
    .ok (createAttributes env.imgSize env.fov freq env.rows)

/-! ### Closed form of the bin-edge array -/

lemma getD_range_map (f : ℕ → ℚ) (n i : ℕ) (h : i < n) :
    (((List.range n).map f).getD i 0) = f i := by
  rw [List.getD_eq_getElem?_getD]
  rw [List.getElem?_map, List.getElem?_range h]
  rfl

lemma binEdges_eq (N : ℕ) (fov : ℚ) (h : fov ≠ 0) :
    binEdges N fov = (List.range (N + 1)).map
      (fun j : ℕ => ((j : ℚ) - ((N : ℚ) + 1) / 2) * fov⁻¹) := by
  unfold binEdges arange
  have h1 : ((((N : ℚ) / 2 + 1 / 2) * fov⁻¹ - -((N : ℚ) / 2 + 1 / 2) * fov⁻¹) / fov⁻¹)
      = ((N : ℚ) + 1) := by
    have h' : fov⁻¹ ≠ 0 := inv_ne_zero h
    field_simp
    ring
  rw [h1]
  have h2 : ⌈((N : ℚ) + 1)⌉ = ((N + 1 : ℕ) : ℤ) := by
    rw [show ((N : ℚ) + 1) = ((N + 1 : ℕ) : ℚ) by push_cast; ring, Int.ceil_natCast]
  rw [h2, Int.toNat_natCast]
  refine List.map_congr_left fun j hj => ?_
  ring

lemma binEdges_length (N : ℕ) (fov : ℚ) (h : fov ≠ 0) :
    (binEdges N fov).length = N + 1 := by
  rw [binEdges_eq N fov h, List.length_map, List.length_range]

lemma binEdges_getD (N : ℕ) (fov : ℚ) (h : fov ≠ 0) {i : ℕ} (hi : i ≤ N) :
    (binEdges N fov).getD i 0 = ((i : ℚ) - ((N : ℚ) + 1) / 2) * fov⁻¹ := by
  rw [binEdges_eq N fov h]
  exact getD_range_map _ _ _ (Nat.lt_succ_of_le hi)

/-! ### Basic histogram facts -/

lemma cellSum_of_count_eq_zero (edges : List ℚ) (samps : List Samp) (w : Samp → ℚ)
    {i j : ℕ} (h : cellCount edges samps i j = 0) :
    cellSum edges samps w i j = 0 := by
  unfold cellCount at h
  rw [List.length_eq_zero] at h
  unfold cellSum
  rw [h, List.map_nil, List.sum_nil]

lemma cellSum_of_all_zero (edges : List ℚ) (samps : List Samp) (w : Samp → ℚ)
    (i j : ℕ) (h : ∀ s ∈ samps, w s = 0) :
    cellSum edges samps w i j = 0 := by
  unfold cellSum
  refine List.sum_eq_zero fun x hx => ?_
  obtain ⟨s, hs, rfl⟩ := List.mem_map.mp hx
  exact h s (List.mem_of_mem_filter hs)

lemma gridMask_of_count_eq_zero (N : ℕ) (fov freq : ℚ) (rows : List VisSample)
    {i j : ℕ} (h : cellCount (binEdges N fov) (mkSamps freq rows) i j = 0) :
    gridMask N fov freq rows i j = 1 := by
  unfold gridMask
  rw [if_pos h]

lemma gridMask_of_count_ne_zero (N : ℕ) (fov freq : ℚ) (rows : List VisSample)
    {i j : ℕ} (h : cellCount (binEdges N fov) (mkSamps freq rows) i j ≠ 0) :
    gridMask N fov freq rows i j =
      (cellCount (binEdges N fov) (mkSamps freq rows) i j : ℚ) := by
  unfold gridMask
  rw [if_neg h]

/-! ### Claim theorems -/

/-- C1: after the binning step, for every input sample set every cell of the
coverage mask is ≥ 1 (zero counts replaced by the sentinel 1), and the
gridded visibility per cell is the sum of the real (resp. imaginary) parts
of the mirrored samples landing in that cell divided by the coverage value,
so occupied cells hold the arithmetic mean and empty cells hold exactly 0. -/
theorem C1_binning_coverage_and_mean (N : ℕ) (fov freq : ℚ)
    (rows : List VisSample) (i j : ℕ) :
    1 ≤ gridMask N fov freq rows i j ∧
    gridReal N fov freq rows i j =
      cellSum (binEdges N fov) (mkSamps freq rows) Samp.re i j /
        gridMask N fov freq rows i j ∧
    gridImag N fov freq rows i j =
      cellSum (binEdges N fov) (mkSamps freq rows) Samp.im i j /
        gridMask N fov freq rows i j ∧
    gridReal N fov freq rows i j =
      (if cellCount (binEdges N fov) (mkSamps freq rows) i j = 0 then 0
       else cellSum (binEdges N fov) (mkSamps freq rows) Samp.re i j /
        (cellCount (binEdges N fov) (mkSamps freq rows) i j : ℚ)) ∧
    gridImag N fov freq rows i j =
      (if cellCount (binEdges N fov) (mkSamps freq rows) i j = 0 then 0
       else cellSum (binEdges N fov) (mkSamps freq rows) Samp.im i j /
        (cellCount (binEdges N fov) (mkSamps freq rows) i j : ℚ)) := by
  refine ⟨?_, rfl, rfl, ?_, ?_⟩
  · unfold gridMask
    by_cases h : cellCount (binEdges N fov) (mkSamps freq rows) i j = 0
    · rw [if_pos h]
    · rw [if_neg h]
      exact_mod_cast Nat.one_le_iff_ne_zero.mpr h
  · by_cases h : cellCount (binEdges N fov) (mkSamps freq rows) i j = 0
    · rw [if_pos h]
      unfold gridReal
      rw [cellSum_of_count_eq_zero _ _ _ h, zero_div]
    · rw [if_neg h]
      unfold gridReal
      rw [gridMask_of_count_ne_zero N fov freq rows h]
  · by_cases h : cellCount (binEdges N fov) (mkSamps freq rows) i j = 0
    · rw [if_pos h]
      unfold gridImag
      rw [cellSum_of_count_eq_zero _ _ _ h, zero_div]
    · rw [if_neg h]
      unfold gridImag
      rw [gridMask_of_count_ne_zero N fov freq rows h]

/-- C2: for every non-empty input sample array, the mirrored sample set has
exactly twice the length of the input, and for every original sample
`(u, v, Re, Im)` it contains both that sample and its Hermitian partner
`(-u, -v, Re, -Im)`. -/
theorem C2_hermitian_mirroring (freq : ℚ) (rows : List VisSample)
    (hne : rows ≠ []) :
    (mkSamps freq rows).length = 2 * rows.length ∧
    ∀ r ∈ rows,
      ({ u := toWavelengths freq r.uu, v := toWavelengths freq r.vv,
         re := (stokesCol0 r).1, im := (stokesCol0 r).2 } : Samp) ∈
          mkSamps freq rows ∧
      ({ u := -toWavelengths freq r.uu, v := -toWavelengths freq r.vv,
         re := (stokesCol0 r).1, im := -(stokesCol0 r).2 } : Samp) ∈
          mkSamps freq rows := by
  constructor
  · unfold mkSamps
    rw [List.length_append, List.length_map, List.length_map]
    ring
  · intro r hr
    constructor
    · exact List.mem_append_right _ (List.mem_map_of_mem _ hr)
    · exact List.mem_append_left _ (List.mem_map_of_mem _ hr)

/-- Witness for C2 at a concrete one-row input. -/
theorem C2_hermitian_mirroring_witness :
    (mkSamps c_val [⟨1, 2, [(3, 4)]⟩]).length = 2 * 1 ∧
    ∀ r ∈ ([⟨1, 2, [(3, 4)]⟩] : List VisSample),
      ({ u := toWavelengths c_val r.uu, v := toWavelengths c_val r.vv,
         re := (stokesCol0 r).1, im := (stokesCol0 r).2 } : Samp) ∈
          mkSamps c_val [⟨1, 2, [(3, 4)]⟩] ∧
      ({ u := -toWavelengths c_val r.uu, v := -toWavelengths c_val r.vv,
         re := (stokesCol0 r).1, im := -(stokesCol0 r).2 } : Samp) ∈
          mkSamps c_val [⟨1, 2, [(3, 4)]⟩] :=
  C2_hermitian_mirroring c_val [⟨1, 2, [(3, 4)]⟩] (by simp)

/-- C3 counterexample: for `img_size = 2` and `fov = 1` the bin edges are
`[-3/2, -1/2, 1/2]`; the claimed symmetry `edges[i] = -edges[N-i]` fails at
`i = 0` (`-3/2 ≠ -(1/2)`, an offset of a full cell, not a floating-point
tolerance), and zero is not a bin boundary: it lies strictly inside (indeed
at the center of) the middle bin `[-1/2, 1/2]`. -/
theorem C3_counterexample :
    (binEdges 2 1).getD 0 0 = -(3 / 2) ∧
    (binEdges 2 1).getD 2 0 = 1 / 2 ∧
    (binEdges 2 1).getD 0 0 ≠ -((binEdges 2 1).getD 2 0) := by
  have h0 : (binEdges 2 1).getD 0 0 = -(3 / 2) := by
    rw [binEdges_getD 2 1 (by norm_num) (by norm_num)]
    norm_num
  have h2 : (binEdges 2 1).getD 2 0 = 1 / 2 := by
    rw [binEdges_getD 2 1 (by norm_num) (by norm_num)]
    norm_num
  refine ⟨h0, h2, ?_⟩
  rw [h0, h2]
  norm_num

/-- C3 (amended): for every positive even `img_size` N and positive `fov`,
the bin-edge array has exactly N+1 elements and is evenly spaced by
`delta = 1/fov`; it is symmetric around zero only in the shifted sense
`edges[i] = -edges[N+1-i]` (the grid is offset by half a cell), and zero
lies at the center of the middle bin — strictly between `edges[N/2]` and
`edges[N/2+1]` and at their midpoint — i.e. at a bin center, not at a bin
boundary. -/
theorem C3_bin_edges (N : ℕ) (fov : ℚ) (hN : 0 < N) (hN2 : N % 2 = 0)
    (hfov : 0 < fov) :
    (binEdges N fov).length = N + 1 ∧
    (∀ i < N, (binEdges N fov).getD (i + 1) 0 - (binEdges N fov).getD i 0 = fov⁻¹) ∧
    (∀ i, 1 ≤ i → i ≤ N →
      (binEdges N fov).getD i 0 = -((binEdges N fov).getD (N + 1 - i) 0)) ∧
    (binEdges N fov).getD (N / 2) 0 < 0 ∧
    0 < (binEdges N fov).getD (N / 2 + 1) 0 ∧
    (binEdges N fov).getD (N / 2) 0 + (binEdges N fov).getD (N / 2 + 1) 0 = 0 := by
  have hf : fov ≠ 0 := ne_of_gt hfov
  have hδ : 0 < fov⁻¹ := inv_pos.mpr hfov
  have hhalf : ((N / 2 : ℕ) : ℚ) = (N : ℚ) / 2 := by
    rw [Nat.cast_div (Nat.dvd_of_mod_eq_zero hN2) (by norm_num)]
    norm_num
  have hle : N / 2 + 1 ≤ N := by omega
  refine ⟨binEdges_length N fov hf, ?_, ?_, ?_, ?_, ?_⟩
  · intro i hi
    rw [binEdges_getD N fov hf (le_of_lt hi), binEdges_getD N fov hf hi]
    push_cast
    ring
  · intro i hi1 hiN
    rw [binEdges_getD N fov hf hiN, binEdges_getD N fov hf (by omega : N + 1 - i ≤ N)]
    rw [Nat.cast_sub (by omega : i ≤ N + 1)]
    push_cast
    ring
  · rw [binEdges_getD N fov hf (by omega : N / 2 ≤ N), hhalf]
    have : (N : ℚ) / 2 - ((N : ℚ) + 1) / 2 = -(1 / 2) := by ring
    rw [this]
    exact mul_neg_of_neg_of_pos (by norm_num) hδ
  · rw [binEdges_getD N fov hf hle]
    push_cast [hhalf]
    have : (N : ℚ) / 2 + 1 - ((N : ℚ) + 1) / 2 = 1 / 2 := by ring
    rw [this]
    exact mul_pos (by norm_num) hδ
  · rw [binEdges_getD N fov hf (by omega : N / 2 ≤ N), binEdges_getD N fov hf hle]
    push_cast [hhalf]
    ring

/-- Witness for C3 (amended) at `img_size = 2`, `fov = 1`. -/
theorem C3_bin_edges_witness :
    0 < 2 ∧ 2 % 2 = 0 ∧ (0 : ℚ) < 1 ∧
    ((binEdges 2 1).length = 2 + 1 ∧
     (∀ i < 2, (binEdges 2 1).getD (i + 1) 0 - (binEdges 2 1).getD i 0 = (1 : ℚ)⁻¹) ∧
     (∀ i, 1 ≤ i → i ≤ 2 →
       (binEdges 2 1).getD i 0 = -((binEdges 2 1).getD (2 + 1 - i) 0)) ∧
     (binEdges 2 1).getD (2 / 2) 0 < 0 ∧
     0 < (binEdges 2 1).getD (2 / 2 + 1) 0 ∧
     (binEdges 2 1).getD (2 / 2) 0 + (binEdges 2 1).getD (2 / 2 + 1) 0 = 0) :=
  ⟨by decide, by decide, by norm_num, C3_bin_edges 2 1 (by decide) (by decide) (by norm_num)⟩

/-- C8 counterexample: the spec's numeric example is off by a factor of
1000: `uu = 1000 m` at `freq = 1e9 Hz` gives `u = 10^12 / 299792458 ≈
3335.64` wavelengths, which misses the claimed `≈ 3.3356` by more than 3332
— far beyond any floating-point tolerance. -/
theorem C8_counterexample :
    3332 < |toWavelengths (10 ^ 9) 1000 - 3.3356| := by
  unfold toWavelengths c_val
  rw [abs_of_pos (by norm_num)]
  norm_num

/-- C8 (amended): coordinate normalization computes `u = uu * freq / c` and
`v = vv * freq / c` elementwise (with `c = 299792458 m/s`); in particular
`uu = 1000 m` at `freq = 1e9 Hz` yields `u ≈ 3335.64` wavelengths. -/
theorem C8_coordinate_normalization (N : ℕ) (fov freq x : ℚ)
    (rows : List VisSample) :
    toWavelengths freq x = x * freq / c_val ∧
    (createAttributes N fov freq rows).u =
      rows.map (fun r => r.uu * freq / c_val) ∧
    (createAttributes N fov freq rows).v =
      rows.map (fun r => r.vv * freq / c_val) ∧
    3335.64 < toWavelengths (10 ^ 9) 1000 ∧
    toWavelengths (10 ^ 9) 1000 < 3335.65 := by
  refine ⟨rfl, rfl, rfl, ?_, ?_⟩
  · unfold toWavelengths c_val
    norm_num
  · unfold toWavelengths c_val
    norm_num

/-- Two lists related pointwise by a relation that `f` respects have equal
images under `f`. -/
lemma map_eq_of_forall₂ {α β : Type} {l₁ l₂ : List α} {R : α → α → Prop}
    (f : α → β) (hf : ∀ a b, R a b → f a = f b) (h : List.Forall₂ R l₁ l₂) :
    l₁.map f = l₂.map f := by
  induction h with
  | nil => rfl
  | cons hab _ ih => rw [List.map_cons, List.map_cons, hf _ _ hab, ih]

/-- The mirrored sample array only depends on `uu`, `vv` and channel
column 0 of each row. -/
lemma mkSamps_congr (freq : ℚ) {rows₁ rows₂ : List VisSample}
    (h : List.Forall₂ (fun r₁ r₂ => r₁.uu = r₂.uu ∧ r₁.vv = r₂.vv ∧
      stokesCol0 r₁ = stokesCol0 r₂) rows₁ rows₂) :
    mkSamps freq rows₁ = mkSamps freq rows₂ := by
  unfold mkSamps
  have h1 := map_eq_of_forall₂ (fun r : VisSample =>
    ({ u := -toWavelengths freq r.uu, v := -toWavelengths freq r.vv,
       re := (stokesCol0 r).1, im := -(stokesCol0 r).2 } : Samp))
    (fun a b hab => by simp only [hab.1, hab.2.1, hab.2.2]) h
  have h2 := map_eq_of_forall₂ (fun r : VisSample =>
    ({ u := toWavelengths freq r.uu, v := toWavelengths freq r.vv,
       re := (stokesCol0 r).1, im := (stokesCol0 r).2 } : Samp))
    (fun a b hab => by simp only [hab.1, hab.2.1, hab.2.2]) h
  rw [h1, h2]

/-- C10: `_create_attributes` grids only column 0 of the `stokes_i` array:
two inputs that agree on `uu`, `vv` and the first visibility channel of
every row produce identical masks, gridded visibilities and dirty images —
the values in every other channel column are discarded. -/
theorem C10_only_channel_zero_matters (N : ℕ) (fov freq : ℚ)
    {rows₁ rows₂ : List VisSample}
    (h : List.Forall₂ (fun r₁ r₂ => r₁.uu = r₂.uu ∧ r₁.vv = r₂.vv ∧
      stokesCol0 r₁ = stokesCol0 r₂) rows₁ rows₂) :
    (∀ i j : ℕ, gridMask N fov freq rows₁ i j = gridMask N fov freq rows₂ i j ∧
      gridReal N fov freq rows₁ i j = gridReal N fov freq rows₂ i j ∧
      gridImag N fov freq rows₁ i j = gridImag N fov freq rows₂ i j) ∧
    ∀ j k : Fin N, dirtyImg N fov freq rows₁ j k = dirtyImg N fov freq rows₂ j k := by
  have hs := mkSamps_congr freq h
  have hmask : ∀ i j : ℕ,
      gridMask N fov freq rows₁ i j = gridMask N fov freq rows₂ i j := by
    intro i j
    unfold gridMask
    rw [hs]
  have hreal : ∀ i j : ℕ,
      gridReal N fov freq rows₁ i j = gridReal N fov freq rows₂ i j := by
    intro i j
    unfold gridReal
    rw [hs, hmask i j]
  have himag : ∀ i j : ℕ,
      gridImag N fov freq rows₁ i j = gridImag N fov freq rows₂ i j := by
    intro i j
    unfold gridImag
    rw [hs, hmask i j]
  have hg : gridCmplx N fov freq rows₁ = gridCmplx N fov freq rows₂ := by
    funext a b
    unfold gridCmplx
    rw [hreal a b, himag a b]
  refine ⟨fun i j => ⟨hmask i j, hreal i j, himag i j⟩, fun j k => ?_⟩
  unfold dirtyImg dirtyImgCmplx
  rw [hg]

/-- Witness for C10: two one-row inputs sharing channel 0 but differing in
channel 1. -/
theorem C10_only_channel_zero_matters_witness :
    (∀ i j : ℕ,
      gridMask 2 1 1 [⟨1, 2, [(3, 4), (5, 6)]⟩] i j =
        gridMask 2 1 1 [⟨1, 2, [(3, 4), (7, 8)]⟩] i j ∧
      gridReal 2 1 1 [⟨1, 2, [(3, 4), (5, 6)]⟩] i j =
        gridReal 2 1 1 [⟨1, 2, [(3, 4), (7, 8)]⟩] i j ∧
      gridImag 2 1 1 [⟨1, 2, [(3, 4), (5, 6)]⟩] i j =
        gridImag 2 1 1 [⟨1, 2, [(3, 4), (7, 8)]⟩] i j) ∧
    ∀ j k : Fin 2, dirtyImg 2 1 1 [⟨1, 2, [(3, 4), (5, 6)]⟩] j k =
      dirtyImg 2 1 1 [⟨1, 2, [(3, 4), (7, 8)]⟩] j k :=
  C10_only_channel_zero_matters 2 1 1
    (List.Forall₂.cons ⟨rfl, rfl, rfl⟩ List.Forall₂.nil)

/-- C7: a `Gridder` instance's attribute state is never modified by any of
the plotting methods: every plotting entry point (including
`plot_dirty_image` in every mode, and the combined summary `plot`) returns
the state unchanged — in the current source they only read attributes and
build fresh arrays for display. -/
theorem C7_plotting_preserves_state (N : ℕ) (g : GridderState N)
    (mode : String) (mult : ℝ) :
    (plotUngriddedUv g).1 = g ∧ (plotMask g).1 = g ∧
    (plotMaskAbsolute g).1 = g ∧ (plotMaskPhase g).1 = g ∧
    (plotDirtyImage g mode mult).1 = g ∧ (plotSummary g mode mult).1 = g :=
  ⟨rfl, rfl, rfl, rfl, rfl, rfl⟩

/-- C9 counterexample: not every failure is surfaced as an error.  When the
`SPECTRAL_WINDOW` frequency read fails inside `from_ms` (with `casatools`
available and the directory present), the `try`/`except` swallows the
failure and the constructor succeeds with the silent default
`freq = 230e9 Hz` instead of raising. -/
theorem C9_counterexample :
    Except.map (fun g => g.freq)
      (fromMs { casaAvail := true, isDir := true, chanFreqRead := none,
                imgSize := 2, fov := 1, rows := [] }) =
      .ok ((230e9 : ℚ)) := rfl

/-- C9 (amended): the existence and dependency checks fail fast —
`from_fits` raises a not-found error when the input file does not exist,
`from_ms` raises a dependency-missing error when `casatools` is not
installed and a not-found error when the measurement-set directory does not
exist — but a failure of the `SPECTRAL_WINDOW` frequency read in `from_ms`
is not surfaced: it is silently replaced by the default `230e9 Hz` and the
constructor succeeds. -/
theorem C9_failure_semantics (envF : FitsEnv) (envM : MsEnv)
    (hfile : envF.isFile = false) :
    fromFits envF = .error .fileNotFound ∧
    (envM.casaAvail = false → fromMs envM = .error .moduleNotFound) ∧
    (envM.casaAvail = true → envM.isDir = false →
      fromMs envM = .error .notADirectory) ∧
    (envM.casaAvail = true → envM.isDir = true → envM.chanFreqRead = none →
      fromMs envM =
        .ok (createAttributes envM.imgSize envM.fov (230e9) envM.rows)) := by
  refine ⟨?_, ?_, ?_, ?_⟩
  · unfold fromFits
    rw [hfile]
    rfl
  · intro hcasa
    unfold fromMs
    rw [hcasa]
    rfl
  · intro hcasa hdir
    unfold fromMs
    rw [hcasa, hdir]
    rfl
  · intro hcasa hdir hfreq
    unfold fromMs
    rw [hcasa, hdir, hfreq]
    rfl

/-- Witness for C9 (amended) on concrete environments. -/
theorem C9_failure_semantics_witness :
    fromFits { isFile := false, imgSize := 2, fov := 1, freq := 1, rows := [] } =
      .error .fileNotFound ∧
    fromMs { casaAvail := false, isDir := true, chanFreqRead := some 1,
             imgSize := 2, fov := 1, rows := [] } = .error .moduleNotFound ∧
    fromMs { casaAvail := true, isDir := false, chanFreqRead := some 1,
             imgSize := 2, fov := 1, rows := [] } = .error .notADirectory ∧
    fromMs { casaAvail := true, isDir := true, chanFreqRead := none,
             imgSize := 2, fov := 1, rows := [] } =
      .ok (createAttributes 2 1 (230e9) []) :=
  ⟨(C9_failure_semantics _ ⟨false, true, some 1, 2, 1, []⟩ rfl).1,
   (C9_failure_semantics ⟨false, 2, 1, 1, []⟩ _ rfl).2.1 rfl,
   (C9_failure_semantics ⟨false, 2, 1, 1, []⟩ _ rfl).2.2.1 rfl rfl,
   (C9_failure_semantics ⟨false, 2, 1, 1, []⟩ _ rfl).2.2.2 rfl rfl rfl⟩

/-! ### Facts about the inverse-FFT stage -/

/-- If both gridded components vanish everywhere, the dirty image is zero. -/
lemma dirtyImg_of_grid_zero {N : ℕ} (fov freq : ℚ) (rows : List VisSample)
    (h : ∀ i j : ℕ, gridReal N fov freq rows i j = 0 ∧
      gridImag N fov freq rows i j = 0) (j k : Fin N) :
    dirtyImg N fov freq rows j k = 0 := by
  have hg : gridCmplx N fov freq rows = fun _ _ => (0 : ℂ) := by
    funext a b
    unfold gridCmplx
    rw [(h a b).1, (h a b).2]
    simp
  unfold dirtyImg dirtyImgCmplx fftshift ifft2
  rw [hg]
  simp

/-- `ifft2` of an array supported on the single entry `(a₀, b₀)` with value
`c`. -/
lemma ifft2_single {N : ℕ} (a₀ b₀ : Fin N) (c : ℂ) (j k : Fin N) :
    ifft2 (fun a b => if a = a₀ ∧ b = b₀ then c else 0) j k =
      ((N : ℂ) ^ 2)⁻¹ * (c * Complex.exp (2 * (Real.pi : ℂ) * Complex.I *
        ((((a₀ : ℕ) * (j : ℕ) + (b₀ : ℕ) * (k : ℕ) : ℕ) : ℂ)) / (N : ℂ))) := by
  unfold ifft2
  congr 1
  rw [Finset.sum_eq_single a₀ ?_ ?_]
  · rw [Finset.sum_eq_single b₀ ?_ ?_]
    · simp
    · intro b _ hb
      simp [hb]
    · intro habs
      exact absurd (Finset.mem_univ b₀) habs
  · intro a _ ha
    refine Finset.sum_eq_zero fun b _ => ?_
    simp [ha]
  · intro habs
    exact absurd (Finset.mem_univ a₀) habs

/-- The `fftshift` index map `(x + (N - N//2)) % N` hits the grid center
`N/2` exactly at `x = 0` (for even `N`). -/
lemma shift_idx_eq_half_iff {N : ℕ} (hN : 0 < N) (hN2 : N % 2 = 0) {a : ℕ}
    (ha : a < N) : (a + (N - N / 2)) % N = N / 2 ↔ a = 0 := by
  have hM : N - N / 2 = N / 2 := by omega
  rw [hM]
  constructor
  · intro h
    rcases lt_or_ge a (N / 2) with h1 | h1
    · rw [Nat.mod_eq_of_lt (by omega)] at h
      omega
    · rw [Nat.mod_eq_sub_mod (by omega), Nat.mod_eq_of_lt (by omega)] at h
      omega
  · rintro rfl
    rw [Nat.zero_add]
    exact Nat.mod_eq_of_lt (by omega)

/-- C6 counterexample: for an empty sample list the stored coverage mask is
not all-zero — after the sentinel replacement every cell holds 1. -/
theorem C6_counterexample :
    gridMask 2 1 1 [] 0 0 = 1 ∧ gridMask 2 1 1 [] 0 0 ≠ 0 := by
  have h : cellCount (binEdges 2 1) (mkSamps 1 []) 0 0 = 0 := by
    simp [mkSamps, cellCount]
  have hm := gridMask_of_count_eq_zero 2 1 1 [] h
  exact ⟨hm, by rw [hm]; norm_num⟩

/-- C6 (amended): `_create_attributes` is total on an empty sample list —
the coverage mask is all-ones (the sentinel), and `mask_real`, `mask_imag`
and the dirty image are all-zero; likewise, for any input whose visibility
values are all zero, `mask_real`, `mask_imag` and the dirty image are
all-zero (while the mask counts the samples, so it is not all-zero
either). -/
theorem C6_empty_and_zero_inputs (N : ℕ) (fov freq : ℚ)
    (rows : List VisSample) (hz : ∀ r ∈ rows, stokesCol0 r = (0, 0)) :
    (∀ i j : ℕ, gridMask N fov freq [] i j = 1 ∧
      gridReal N fov freq [] i j = 0 ∧ gridImag N fov freq [] i j = 0) ∧
    (∀ j k : Fin N, dirtyImg N fov freq [] j k = 0) ∧
    (∀ i j : ℕ, gridReal N fov freq rows i j = 0 ∧
      gridImag N fov freq rows i j = 0) ∧
    (∀ j k : Fin N, dirtyImg N fov freq rows j k = 0) := by
  have key : ∀ rows' : List VisSample, (∀ r ∈ rows', stokesCol0 r = (0, 0)) →
      ∀ i j : ℕ, gridReal N fov freq rows' i j = 0 ∧
        gridImag N fov freq rows' i j = 0 := by
    intro rows' hz' i j
    have hre : ∀ s ∈ mkSamps freq rows', s.re = 0 := by
      intro s hs
      unfold mkSamps at hs
      rcases List.mem_append.mp hs with hmem | hmem <;>
        · obtain ⟨r, hr, rfl⟩ := List.mem_map.mp hmem
          simp [hz' r hr]
    have him : ∀ s ∈ mkSamps freq rows', s.im = 0 := by
      intro s hs
      unfold mkSamps at hs
      rcases List.mem_append.mp hs with hmem | hmem <;>
        · obtain ⟨r, hr, rfl⟩ := List.mem_map.mp hmem
          simp [hz' r hr]
    constructor
    · unfold gridReal
      rw [cellSum_of_all_zero _ _ _ _ _ hre, zero_div]
    · unfold gridImag
      rw [cellSum_of_all_zero _ _ _ _ _ him, zero_div]
  have hemptyCount : ∀ i j : ℕ,
      cellCount (binEdges N fov) (mkSamps freq []) i j = 0 := by
    intro i j
    simp [mkSamps, cellCount]
  have hemptyzero := key [] (by intro r hr; exact absurd hr (List.not_mem_nil r))
  have hrowszero := key rows hz
  exact ⟨fun i j => ⟨gridMask_of_count_eq_zero N fov freq [] (hemptyCount i j),
      hemptyzero i j⟩,
    dirtyImg_of_grid_zero fov freq [] hemptyzero,
    hrowszero,
    dirtyImg_of_grid_zero fov freq rows hrowszero⟩

/-- Witness for C6 (amended) at `N = 2` with a one-row all-zero sample. -/
theorem C6_empty_and_zero_inputs_witness :
    (∀ i j : ℕ, gridMask 2 1 1 [] i j = 1 ∧
      gridReal 2 1 1 [] i j = 0 ∧ gridImag 2 1 1 [] i j = 0) ∧
    (∀ j k : Fin 2, dirtyImg 2 1 1 [] j k = 0) ∧
    (∀ i j : ℕ, gridReal 2 1 1 [⟨0, 0, [(0, 0)]⟩] i j = 0 ∧
      gridImag 2 1 1 [⟨0, 0, [(0, 0)]⟩] i j = 0) ∧
    (∀ j k : Fin 2, dirtyImg 2 1 1 [⟨0, 0, [(0, 0)]⟩] j k = 0) :=
  C6_empty_and_zero_inputs 2 1 1 [⟨0, 0, [(0, 0)]⟩]
    (by intro r hr; rw [List.mem_singleton] at hr; rw [hr]; rfl)

/-! ### Gridding a single sample at baseline (0, 0) -/

/-- Zero lands exactly in bin `N/2` of the bin-edge array (for even `N`):
the zero-baseline sample is assigned to the central cell. -/
lemma inBin_zero_iff {N : ℕ} {fov : ℚ} (hfov : 0 < fov) (hN : 0 < N)
    (hN2 : N % 2 = 0) {i : ℕ} (hi : i < N) :
    inBin (binEdges N fov) i 0 = true ↔ i = N / 2 := by
  have hf : fov ≠ 0 := ne_of_gt hfov
  have hδ : 0 < fov⁻¹ := inv_pos.mpr hfov
  have h1 : ((binEdges N fov).getD i 0 ≤ 0) ↔ 2 * i ≤ N + 1 := by
    rw [binEdges_getD N fov hf (le_of_lt hi)]
    have h' := mul_le_mul_right (b := (i : ℚ) - ((N : ℚ) + 1) / 2) (c := 0) hδ
    rw [zero_mul] at h'
    rw [h', sub_nonpos, le_div_iff (by norm_num : (0 : ℚ) < 2)]
    rw [show ((i : ℚ) * 2) = ((2 * i : ℕ) : ℚ) by push_cast; ring,
      show ((N : ℚ) + 1) = ((N + 1 : ℕ) : ℚ) by push_cast; ring, Nat.cast_le]
  have h2 : (0 < (binEdges N fov).getD (i + 1) 0) ↔ N + 1 < 2 * (i + 1) := by
    rw [binEdges_getD N fov hf hi]
    have h' := mul_lt_mul_right (b := (0 : ℚ))
      (c := ((i + 1 : ℕ) : ℚ) - ((N : ℚ) + 1) / 2) hδ
    rw [zero_mul] at h'
    rw [h', sub_pos, div_lt_iff (by norm_num : (0 : ℚ) < 2)]
    rw [show (((i + 1 : ℕ) : ℚ) * 2) = ((2 * (i + 1) : ℕ) : ℚ) by push_cast; ring,
      show ((N : ℚ) + 1) = ((N + 1 : ℕ) : ℚ) by push_cast; ring, Nat.cast_lt]
  have h3 : (0 ≤ (binEdges N fov).getD (i + 1) 0) ↔ N + 1 ≤ 2 * (i + 1) := by
    rw [binEdges_getD N fov hf hi]
    have h' := mul_le_mul_right (b := (0 : ℚ))
      (c := ((i + 1 : ℕ) : ℚ) - ((N : ℚ) + 1) / 2) hδ
    rw [zero_mul] at h'
    rw [h', sub_nonneg, div_le_iff (by norm_num : (0 : ℚ) < 2)]
    rw [show (((i + 1 : ℕ) : ℚ) * 2) = ((2 * (i + 1) : ℕ) : ℚ) by push_cast; ring,
      show ((N : ℚ) + 1) = ((N + 1 : ℕ) : ℚ) by push_cast; ring, Nat.cast_le]
  unfold inBin
  rw [binEdges_length N fov hf]
  by_cases hlast : i + 2 = N + 1
  · rw [if_pos hlast, Bool.and_eq_true, decide_eq_true_eq, decide_eq_true_eq, h1, h3]
    omega
  · rw [if_neg hlast, Bool.and_eq_true, decide_eq_true_eq, decide_eq_true_eq, h1, h2]
    omega

/-- The mirrored sample array of the single unit-amplitude sample at
baseline (0, 0): two copies of `(0, 0, 1, 0)`. -/
lemma mkSamps_unit_zero (freq : ℚ) :
    mkSamps freq [⟨0, 0, [(1, 0)]⟩] =
      [⟨0, 0, 1, 0⟩, ⟨0, 0, 1, 0⟩] := by
  simp [mkSamps, toWavelengths, stokesCol0]

/-- Cell population for two copies of the zero-baseline sample: the central
cell holds both; every other cell is empty. -/
lemma cellCount_unit_zero {N : ℕ} {fov : ℚ} (hfov : 0 < fov) (hN : 0 < N)
    (hN2 : N % 2 = 0) {i j : ℕ} (hi : i < N) (hj : j < N) :
    cellCount (binEdges N fov) [⟨0, 0, 1, 0⟩, ⟨0, 0, 1, 0⟩] i j =
      if i = N / 2 ∧ j = N / 2 then 2 else 0 := by
  have hu : inBin (binEdges N fov) i 0 = decide (i = N / 2) := by
    rw [Bool.eq_iff_iff, decide_eq_true_eq]
    exact inBin_zero_iff hfov hN hN2 hi
  have hv : inBin (binEdges N fov) j 0 = decide (j = N / 2) := by
    rw [Bool.eq_iff_iff, decide_eq_true_eq]
    exact inBin_zero_iff hfov hN hN2 hj
  unfold cellCount inCell
  by_cases hij : i = N / 2 ∧ j = N / 2
  · obtain ⟨hi2, hj2⟩ := hij
    subst hi2
    subst hj2
    rw [if_pos ⟨rfl, rfl⟩]
    simp [List.filter, hu, hv]
  · rw [if_neg hij]
    rcases Decidable.not_and_iff_or_not.mp hij with hcase | hcase <;>
      simp [List.filter, hu, hv, hcase]

/-- Real-part sums for two copies of the zero-baseline unit sample. -/
lemma cellSum_unit_zero {N : ℕ} {fov : ℚ} (hfov : 0 < fov) (hN : 0 < N)
    (hN2 : N % 2 = 0) {i j : ℕ} (hi : i < N) (hj : j < N) :
    cellSum (binEdges N fov) [⟨0, 0, 1, 0⟩, ⟨0, 0, 1, 0⟩] Samp.re i j =
      if i = N / 2 ∧ j = N / 2 then 2 else 0 := by
  have hu : inBin (binEdges N fov) i 0 = decide (i = N / 2) := by
    rw [Bool.eq_iff_iff, decide_eq_true_eq]
    exact inBin_zero_iff hfov hN hN2 hi
  have hv : inBin (binEdges N fov) j 0 = decide (j = N / 2) := by
    rw [Bool.eq_iff_iff, decide_eq_true_eq]
    exact inBin_zero_iff hfov hN hN2 hj
  unfold cellSum inCell
  by_cases hij : i = N / 2 ∧ j = N / 2
  · obtain ⟨hi2, hj2⟩ := hij
    subst hi2
    subst hj2
    rw [if_pos ⟨rfl, rfl⟩]
    simp [List.filter, hu, hv]
    norm_num
  · rw [if_neg hij]
    rcases Decidable.not_and_iff_or_not.mp hij with hcase | hcase <;>
      simp [List.filter, hu, hv, hcase]

/-- The gridded visibility of the single zero-baseline unit sample is the
indicator of the central cell, and the imaginary grid vanishes. -/
lemma grid_unit_zero {N : ℕ} {fov : ℚ} (freq : ℚ) (hfov : 0 < fov) (hN : 0 < N)
    (hN2 : N % 2 = 0) {i j : ℕ} (hi : i < N) (hj : j < N) :
    gridReal N fov freq [⟨0, 0, [(1, 0)]⟩] i j =
      (if i = N / 2 ∧ j = N / 2 then 1 else 0) ∧
    gridImag N fov freq [⟨0, 0, [(1, 0)]⟩] i j = 0 := by
  constructor
  · unfold gridReal gridMask
    rw [mkSamps_unit_zero freq, cellCount_unit_zero hfov hN hN2 hi hj,
      cellSum_unit_zero hfov hN hN2 hi hj]
    by_cases hij : i = N / 2 ∧ j = N / 2
    · rw [if_pos hij, if_pos hij, if_pos hij, if_neg (by norm_num)]
      norm_num
    · rw [if_neg hij, if_neg hij, if_neg hij, if_pos rfl]
      norm_num
  · unfold gridImag
    rw [mkSamps_unit_zero freq]
    rw [cellSum_of_all_zero _ _ _ i j ?_, zero_div]
    intro s hs
    rcases List.mem_cons.mp hs with rfl | hs'
    · rfl
    · rcases List.mem_cons.mp hs' with rfl | hs''
      · rfl
      · exact absurd hs'' (List.not_mem_nil s)

/-- C5: gridding the single unit-amplitude sample at baseline (0, 0) (plus
its mirror) and applying the shifted inverse FFT yields a dirty image that
is the same value `1/N²` at every pixel — a flat, DC-only image — for every
positive even `img_size` and positive `fov`. -/
theorem C5_zero_baseline_flat_image (N : ℕ) (fov freq : ℚ) (hN : 0 < N)
    (hN2 : N % 2 = 0) (hfov : 0 < fov) (j k : Fin N) :
    dirtyImg N fov freq [⟨0, 0, [(1, 0)]⟩] j k = ((N : ℝ) ^ 2)⁻¹ := by
  have hG : gridCmplx N fov freq [⟨0, 0, [(1, 0)]⟩] =
      fun i j => if i = (⟨N / 2, by omega⟩ : Fin N) ∧ j = ⟨N / 2, by omega⟩
        then 1 else 0 := by
    funext a b
    unfold gridCmplx
    obtain ⟨hre, him⟩ := grid_unit_zero freq hfov hN hN2 a.isLt b.isLt
    rw [hre, him]
    by_cases hab : (a : ℕ) = N / 2 ∧ (b : ℕ) = N / 2
    · rw [if_pos hab, if_pos ⟨Fin.ext hab.1, Fin.ext hab.2⟩]
      simp
    · rw [if_neg hab, if_neg (fun hc =>
        hab ⟨congrArg Fin.val hc.1, congrArg Fin.val hc.2⟩)]
      simp
  have hshift : fftshift (gridCmplx N fov freq [⟨0, 0, [(1, 0)]⟩]) =
      fun a b => if a = (⟨0, hN⟩ : Fin N) ∧ b = ⟨0, hN⟩ then 1 else 0 := by
    funext a b
    have ha := shift_idx_eq_half_iff hN hN2 a.isLt
    have hb := shift_idx_eq_half_iff hN hN2 b.isLt
    unfold fftshift
    simp only [hG, Fin.ext_iff, ha, hb]
  unfold dirtyImg dirtyImgCmplx
  rw [hshift]
  have hifft : ∀ p q : Fin N,
      ifft2 (fun a b => if a = (⟨0, hN⟩ : Fin N) ∧ b = ⟨0, hN⟩ then 1 else 0) p q
        = ((N : ℂ) ^ 2)⁻¹ := by
    intro p q
    rw [ifft2_single (⟨0, hN⟩ : Fin N) (⟨0, hN⟩ : Fin N) 1 p q]
    simp
  unfold fftshift
  rw [hifft]
  rw [show ((N : ℂ) ^ 2) = (((N : ℝ) ^ 2 : ℝ) : ℂ) by push_cast; ring]
  rw [← Complex.ofReal_inv, Complex.ofReal_re]

/-- Witness for C5 at `N = 2`, `fov = 1`, `freq = 1`. -/
theorem C5_zero_baseline_flat_image_witness :
    0 < 2 ∧ 2 % 2 = 0 ∧ (0 : ℚ) < 1 ∧
    dirtyImg 2 1 1 [⟨0, 0, [(1, 0)]⟩] 0 0 = (((2 : ℕ) : ℝ) ^ 2)⁻¹ :=
  ⟨by decide, by decide, by norm_num,
    C5_zero_baseline_flat_image 2 1 1 (by decide) (by decide) (by norm_num) 0 0⟩

/-! ### The dirty image is not axis-reversed (C4) -/

/-- The bin edges for `img_size = 2`, `fov = 1`. -/
lemma binEdges_two : binEdges 2 1 = [-(3 / 2 : ℚ), -(1 / 2 : ℚ), (1 / 2 : ℚ)] := by
  rw [binEdges_eq 2 1 (by norm_num)]
  norm_num [List.range_succ]

/-- The mirrored samples of the single sample at `(uu, vv) = (-1, 0)` with
`freq = c`: the mirror `(1, 0)` and the original `(-1, 0)`. -/
lemma mkSamps_c4 : mkSamps c_val [⟨-1, 0, [(1, 0)]⟩] =
    [⟨1, 0, 1, 0⟩, ⟨-1, 0, 1, 0⟩] := by
  norm_num [mkSamps, toWavelengths, stokesCol0, c_val]

/-- Gridded real part for the C4 test input: the mirror sample at
`u = 1` falls outside the grid and is discarded; the original at
`(u, v) = (-1, 0)` lands in cell `(0, 1)`. -/
lemma gridReal_c4 (i j : Fin 2) :
    gridReal 2 1 c_val [⟨-1, 0, [(1, 0)]⟩] (i : ℕ) (j : ℕ) =
      if (i : ℕ) = 0 ∧ (j : ℕ) = 1 then 1 else 0 := by
  fin_cases i <;> fin_cases j <;>
    norm_num [gridReal, gridMask, cellSum, cellCount, inCell, inBin,
      mkSamps_c4, binEdges_two, List.filter_cons, List.filter_nil,
      List.getD_cons_zero, List.getD_cons_succ]

/-- Gridded imaginary part for the C4 test input: identically zero. -/
lemma gridImag_c4 (i j : ℕ) :
    gridImag 2 1 c_val [⟨-1, 0, [(1, 0)]⟩] i j = 0 := by
  unfold gridImag
  rw [mkSamps_c4, cellSum_of_all_zero _ _ _ i j ?_, zero_div]
  intro s hs
  rcases List.mem_cons.mp hs with rfl | hs'
  · rfl
  · rcases List.mem_cons.mp hs' with rfl | hs''
    · rfl
    · exact absurd hs'' (List.not_mem_nil s)

/-- The complex grid of the C4 test input: the indicator of cell `(0, 1)`. -/
lemma gridCmplx_c4 : gridCmplx 2 1 c_val [⟨-1, 0, [(1, 0)]⟩] =
    fun i j => if i = (0 : Fin 2) ∧ j = (1 : Fin 2) then 1 else 0 := by
  funext a b
  unfold gridCmplx
  rw [gridReal_c4 a b, gridImag_c4]
  fin_cases a <;> fin_cases b <;> simp

/-- After the first `fftshift`, the C4 grid is the indicator of `(1, 0)`. -/
lemma shifted_c4 : fftshift (gridCmplx 2 1 c_val [⟨-1, 0, [(1, 0)]⟩]) =
    fun a b => if a = (1 : Fin 2) ∧ b = (0 : Fin 2) then 1 else 0 := by
  funext a b
  unfold fftshift
  rw [gridCmplx_c4]
  fin_cases a <;> fin_cases b <;> simp

/-- C4 counterexample: at a concrete input (`img_size = 2`, `fov = 1`,
`freq = c`, one sample at `(uu, vv) = (-1, 0)` with value 1) the dirty
image the code exports is `Re(fftshift(ifft2(fftshift(G))))` with NO
reversal: its pixel `(0, 0)` is `-1/4`, while the row-reversed array the
claim describes has `+1/4` there. -/
theorem C4_counterexample :
    dirtyImg 2 1 c_val [⟨-1, 0, [(1, 0)]⟩] 0 0 ≠
      reverseRows (fun j k =>
        (fftshift (ifft2 (fftshift (gridCmplx 2 1 c_val [⟨-1, 0, [(1, 0)]⟩]))) j k).re)
        0 0 := by
  have hval : ∀ p q : Fin 2,
      ifft2 (fun a b => if a = (1 : Fin 2) ∧ b = (0 : Fin 2) then (1 : ℂ) else 0) p q
        = ((2 : ℂ) ^ 2)⁻¹ * Complex.exp ((Real.pi : ℂ) * Complex.I * ((p : ℕ) : ℂ)) := by
    intro p q
    rw [ifft2_single (1 : Fin 2) (0 : Fin 2) 1 p q]
    simp only [Fin.val_one, Fin.val_zero, one_mul, zero_mul, Nat.add_zero]
    congr 1
    push_cast
    ring
  simp only [dirtyImg, dirtyImgCmplx, reverseRows]
  rw [shifted_c4]
  simp only [fftshift]
  rw [hval, hval]
  have hrev : ((Fin.rev (0 : Fin 2) : ℕ) + (2 - 2 / 2)) % 2 = 0 := by decide
  have hfwd : (((0 : Fin 2) : ℕ) + (2 - 2 / 2)) % 2 = 1 := by decide
  simp only [hrev, hfwd]
  rw [Nat.cast_one, Nat.cast_zero]
  rw [mul_one, mul_zero, Complex.exp_zero, Complex.exp_pi_mul_I]
  rw [show ((2 : ℂ) ^ 2)⁻¹ * (-1) = ((-(4⁻¹ : ℝ) : ℝ) : ℂ) by push_cast; ring,
    show ((2 : ℂ) ^ 2)⁻¹ * 1 = (((4⁻¹ : ℝ) : ℝ) : ℂ) by push_cast; ring]
  rw [Complex.ofReal_re, Complex.ofReal_re]
  norm_num

/-- C4 (amended): the dirty image exported by `Gridder` equals the real
part of `fftshift(ifft2(fftshift(mask_real + i*mask_imag)))` — an FFT shift
applied before the inverse 2D FFT and again after — with NO axis reversal,
and the complex shifted inverse transform is retained as
`dirty_img_cmplx` for amplitude/phase inspection. -/
theorem C4_dirty_image_synthesis (N : ℕ) (fov freq : ℚ) (rows : List VisSample) :
    (createAttributes N fov freq rows).dirty_img_cmplx =
      (fun j k => fftshift (ifft2 (fftshift (gridCmplx N fov freq rows))) j k) ∧
    (createAttributes N fov freq rows).dirty_img =
      (fun j k => ((createAttributes N fov freq rows).dirty_img_cmplx j k).re) :=
  ⟨rfl, rfl⟩

end Radiotools
